import Mathlib

/-!
Verification development for the operator-controller extension manager:
the bundle resolution engine (upgrade-edge constrained version selection),
the reconciliation pass that drives resolve → unpack → install and manages
the fixed status-condition set, and the generated deep-copy helpers of the
`BundleSource` API type.

The resolver and reconciler are modelled from the specification
(`spec.md` §3, §4.1–§4.4, §6–§8); the `BundleSource.DeepCopy` /
`DeepCopyInto` functions are embedded directly from the Go source.
-/

namespace OperatorController

/-! ## Semantic versions and their precedence order -/

/-- A pre-release identifier of a semantic version: either a numeric
identifier or an alphanumeric one.  Numeric identifiers always have lower
precedence than alphanumeric ones, which is exactly the order of `Nat ⊕ₗ
String` (left before right, each side ordered naturally). -/
abbrev PreId := Lex (Nat ⊕ String)

/-- A semantic version: `major.minor.patch` with an optional dash-separated
pre-release identifier list (empty list = release version). -/
structure SemVer where
  major : Nat
  minor : Nat
  patch : Nat
  pre : List (Nat ⊕ String)
deriving DecidableEq, Repr

/-- Shorthand for a release version `a.b.c`. -/
def semver (a b c : Nat) : SemVer := ⟨a, b, c, []⟩

/-- Key of the pre-release component under semantic-version precedence: a
release version (`pre = []`) outranks every pre-release of the same
`major.minor.patch`, hence maps to `⊤`; pre-release identifier lists are
compared lexicographically, a strict prefix ranking lower. -/
def preKey (pre : List (Nat ⊕ String)) : WithTop (List PreId) :=
  match pre with
  | [] => ⊤
  | l => (l.map (fun i => toLex i) : List PreId)

/-- Order key of a whole semantic version: lexicographic on
`(major, minor, patch, preKey)`.  `SemVer.key a < SemVer.key b` is exactly
"`a` has lower semantic-version precedence than `b`" (spec §4.1 step 6). -/
def SemVer.key (v : SemVer) : Lex (Nat × Lex (Nat × Lex (Nat × WithTop (List PreId)))) :=
  toLex (v.major, toLex (v.minor, toLex (v.patch, preKey v.pre)))

/-- Render a pre-release identifier the way it is written. -/
def PreId.render : Nat ⊕ String → String
  | .inl n => toString n
  | .inr s => s

/-- Render a semantic version as `major.minor.patch` with an optional
`-pre.release` suffix, as it appears in user-facing messages. -/
def SemVer.render (v : SemVer) : String :=
  toString v.major ++ "." ++ toString v.minor ++ "." ++ toString v.patch ++
    (match v.pre with
     | [] => ""
     | p => "-" ++ String.intercalate "." (p.map PreId.render))

/-! ## Catalog data model (spec §3) -/

/-- Modelled from the spec: the version interval form of a `skipRange`
upgrade edge — a half-open interval `[lo, hi)` of versions the bundle may
upgrade from (spec §3 "a version interval this bundle may upgrade-from"). -/
structure VersionInterval where
  lo : SemVer
  hi : SemVer
deriving DecidableEq, Repr

/-- Membership of a version in a `skipRange` interval, under
semantic-version precedence. -/
def VersionInterval.containsV (r : VersionInterval) (v : SemVer) : Bool :=
  decide (r.lo.key ≤ v.key) && decide (v.key < r.hi.key)

/-- Modelled from the spec: a catalog bundle (spec §3 "Bundle") — package
name, semantic version, upgrade edges (`replaces`, `skips`, `skipRange`),
the channels it is published on, and the type strings of the properties it
declares (its dependency declarations live among these).  The opaque
content reference is irrelevant to every claim and omitted. -/
structure Bundle where
  name : String
  package : String
  version : SemVer
  replaces : Option SemVer
  skips : List SemVer
  skipRange : Option VersionInterval
  channels : List String
  properties : List String
deriving DecidableEq, Repr

/-- Modelled from the spec: the lightweight `(name, version)` reference to
a bundle used for status reporting and as the installed fact (spec §3
"BundleMetadata"). -/
structure BundleMetadata where
  name : String
  version : SemVer
deriving DecidableEq, Repr

/-- The metadata projection of a bundle. -/
def Bundle.metadata (b : Bundle) : BundleMetadata := ⟨b.name, b.version⟩

/-! ## Extension spec (spec §3, §6) -/

/-- Modelled from the spec: the upgrade-constraint policy enum
(`Enforce` | `Ignore`). -/
inductive UpgradeConstraintPolicy
  | Enforce
  | Ignore
deriving DecidableEq, Repr

/-- Modelled from the spec: the user-facing spec of an Extension object
(spec §6 "Desired-state object schema"): required package name, optional
exact version, optional channel, optional upgrade-constraint policy
(defaulting to `Enforce` when omitted), install namespace and service
account. -/
structure ExtensionSpec where
  packageName : String
  version : Option SemVer
  channel : Option String
  upgradeConstraintPolicy : Option UpgradeConstraintPolicy
  installNamespace : String
  serviceAccount : String
deriving DecidableEq, Repr

/-- The policy in effect: the declared one, or `Enforce` when the field is
omitted (spec §6: "upgradeConstraintPolicy (enum: Enforce|Ignore, default
Enforce)"). -/
def ExtensionSpec.effectivePolicy (s : ExtensionSpec) : UpgradeConstraintPolicy :=
  s.upgradeConstraintPolicy.getD .Enforce

/-! ## Resolver (spec §4.1) -/

/-- Modelled from the spec: graph-reachability of a candidate bundle from
the installed version via one upgrade edge (spec §4.1 step 4):
`candidate.replaces == installed.version`, OR `installed.version ∈
candidate.skips`, OR `installed.version` falls inside
`candidate.skipRange`. -/
def isSuccessor (installed : SemVer) (b : Bundle) : Bool :=
  decide (b.replaces = some installed) || b.skips.contains installed ||
    (match b.skipRange with
     | some r => r.containsV installed
     | none => false)

/-- Modelled from the spec: the candidate set of a resolution call (spec
§4.1 steps 1–5).  Step 1 keeps the bundles of the requested package; step
2 narrows to the exact requested version when one is given, else to the
requested channel when one is given; steps 4–5 apply the upgrade-edge
reachability filter exactly when an installed fact exists and the
effective policy is `Enforce`.  Per the design note of spec §4.2, no
dependency-declaration filtering happens here: that check is a
post-selection validation in the reconciler.  Deprecation-based exclusion
is not modelled (no claim concerns deprecated bundles). -/
def candidates (spec : ExtensionSpec) (installed : Option BundleMetadata)
    (catalog : List Bundle) : List Bundle :=
  let packageBundles := catalog.filter (fun b => b.package == spec.packageName)
  let constrained :=
    match spec.version with
    | some v => packageBundles.filter (fun b => b.version == v)
    | none =>
      match spec.channel with
      | some ch => packageBundles.filter (fun b => b.channels.contains ch)
      | none => packageBundles
  match installed, spec.effectivePolicy with
  | some inst, .Enforce => constrained.filter (fun b => isSuccessor inst.version b)
  | _, _ => constrained

/-- Modelled from the spec: the `ResolutionFailed` error carried by a
failed resolution (spec §7 taxonomy); only its message is observable. -/
structure ResolutionError where
  message : String
deriving DecidableEq, Repr

/-- Modelled from the spec: the base "nothing matched" message — `no
package "<name>" matching version "<requested>" found`, or the
channel-qualified equivalent (spec §4.1 step 4). -/
def noMatchMsg (spec : ExtensionSpec) : String :=
  match spec.version with
  | some v =>
    "no package \"" ++ spec.packageName ++ "\" matching version \"" ++ v.render ++ "\" found"
  | none =>
    match spec.channel with
    | some ch => "no package \"" ++ spec.packageName ++ "\" in channel \"" ++ ch ++ "\" found"
    | none => "no package \"" ++ spec.packageName ++ "\" found"

/-- Modelled from the spec: the full resolution-failure message; when an
installed fact exists it is prefixed with `error upgrading from currently
installed version "<installed>": ` (spec §4.1 step 4). -/
def resolutionFailedMsg (spec : ExtensionSpec) (installed : Option BundleMetadata) : String :=
  match installed with
  | some inst =>
    "error upgrading from currently installed version \"" ++ inst.version.render ++ "\": " ++
      noMatchMsg spec
  | none => noMatchMsg spec

/-- The candidate of highest semantic-version precedence among `b :: rest`
(spec §4.1 step 6: "highest" is the maximum under semver precedence). -/
def highest (b : Bundle) (rest : List Bundle) : Bundle :=
  match rest with
  | [] => b
  | c :: cs => if b.version.key < c.version.key then highest c cs else highest b cs

/-- Modelled from the spec: the resolver (spec §4.1) — a pure function
from (extension spec, installed fact, catalog) to the selected bundle or a
typed `ResolutionFailed` failure.  It narrows the catalog to the candidate
set and selects the candidate with the highest version, failing with the
formatted message when no candidate exists. -/
def Resolve (spec : ExtensionSpec) (installed : Option BundleMetadata)
    (catalog : List Bundle) : Except ResolutionError Bundle :=
  match candidates spec installed catalog with
  | [] => .error ⟨resolutionFailedMsg spec installed⟩
  | b :: bs => .ok (highest b bs)

/-! ## Status conditions (spec §3, §4.4, §6) -/

/-- Modelled from the spec: condition status values (True, False,
Unknown). -/
inductive ConditionStatus
  | conditionTrue
  | conditionFalse
  | conditionUnknown
deriving DecidableEq, Repr

/-- Modelled from the spec: a status condition — (type, status, reason,
message); the last-transition time is not modelled (no claim concerns
real time). -/
structure Condition where
  type : String
  status : ConditionStatus
  reason : String
  message : String
deriving DecidableEq, Repr

/-- The `Resolved` condition type. -/
def TypeResolved : String := "Resolved"

/-- The `Unpacked` condition type. -/
def TypeUnpacked : String := "Unpacked"

/-- The `Installed` condition type. -/
def TypeInstalled : String := "Installed"

/-- Modelled from the spec: the fixed, canonical, ordered set of condition
types the object always carries — Resolved, Unpacked, Installed — no
more, no fewer (spec §3 "Condition"). -/
def ConditionTypes : List String := [TypeResolved, TypeUnpacked, TypeInstalled]

/-- Modelled from the spec: `FindCondition` of the Condition/Status
Manager (spec §4.4) — read-only lookup of a condition by type. -/
def FindCondition (conds : List Condition) (t : String) : Option Condition :=
  conds.find? (fun c => c.type == t)

/-- Modelled from the spec: the status of an Extension object — the
condition list plus the `ResolvedBundle` and `InstalledBundle`
projections (spec §6). -/
structure ExtensionStatus where
  conditions : List Condition
  resolvedBundle : Option BundleMetadata
  installedBundle : Option BundleMetadata
deriving DecidableEq, Repr

/-- The status of a freshly created Extension object: no conditions, no
resolved or installed bundle recorded. -/
def initialStatus : ExtensionStatus := ⟨[], none, none⟩

/-- A condition carried over unchanged from the prior status (spec §4.3
step 2: "leave Unpacked/Installed conditions untouched"); when the prior
status does not carry it yet (first pass), it is present with status
Unknown so that the full canonical set exists after every update (spec
§4.3: "exactly the fixed set of condition types must be present after
each update"). -/
def carriedOr (prior : ExtensionStatus) (t : String) : Condition :=
  match FindCondition prior.conditions t with
  | some c => c
  | none => ⟨t, .conditionUnknown, "", ""⟩

/-! ## Dependency admissibility check (spec §4.2) -/

/-- Modelled from the spec: the unsupported dependency-declaration
property types — package-required, GVK-required, and generic constraint
declarations (spec §4.2, §8). -/
def unsupportedPropertyTypes : List String :=
  ["olm.package.required", "olm.gvk.required", "olm.constraint"]

/-- The first unsupported dependency declaration a bundle carries, if
any. -/
def Bundle.unsupportedDep (b : Bundle) : Option String :=
  b.properties.find? (fun p => unsupportedPropertyTypes.contains p)

/-! ## Reconciliation pass (spec §4.3) -/

/-- Modelled from the spec: the unpacker's readiness states (spec §6
"Unpack → Result{State ∈ {Pending, Unpacked, Failed}}"). -/
inductive UnpackState
  | statePending
  | stateUnpacked
  | stateFailed
deriving DecidableEq, Repr

/-- Modelled from the spec: the Unpacker and Installer collaborators as
supplied outcome functions — `unpack` yields a readiness state for a
bundle, `install` yields `none` on success or the installer's error text
on failure (spec §6). -/
structure Collaborators where
  unpack : Bundle → UnpackState
  install : Bundle → Option String

/-- Modelled from the spec: the typed domain failures of a reconcile pass
(spec §7 taxonomy; `StoreConflict` is internal to the store and not
modelled). -/
inductive ReconcileError
  | resolutionFailed (message : String)
  | unsupportedDependency (bundleName propType : String)
  | unpackFailed (message : String)
  | installationFailed (message : String)
deriving DecidableEq, Repr

/-- The user-facing message of a reconcile failure; an unsupported
dependency renders as `bundle "<name>" has a dependency declared via
property "<prop>" which is currently not supported` (spec §8). -/
def ReconcileError.render : ReconcileError → String
  | .resolutionFailed m => m
  | .unsupportedDependency n p =>
    "bundle \"" ++ n ++ "\" has a dependency declared via property \"" ++ p ++
      "\" which is currently not supported"
  | .unpackFailed m => m
  | .installationFailed m => m

/-- The type of the resolver the reconciler is configured with; the
production resolver is `Resolve`, tests substitute stub functions. -/
def Resolver : Type :=
  ExtensionSpec → Option BundleMetadata → List Bundle → Except ResolutionError Bundle

/-- Modelled from the spec: one reconcile pass (spec §4.3), returning the
new status and the pass's domain error, if any.  Steps: call the
configured resolver; on failure set Resolved=False/ResolutionFailed,
clear `ResolvedBundle` and carry the other conditions; on success set
Resolved=True and record `ResolvedBundle`, then — per spec §4.2's design
note — validate the winning bundle's dependency declarations and fail
with a fatal `UnsupportedDependency` error surfaced on the Installed
condition (reason InstallationFailed) when one is unsupported; otherwise,
when the resolved bundle equals the installed fact and installation is
already confirmed, take no further action (steady state); otherwise drive
the Unpacker (Pending/Failed/Unpacked) and then the Installer, setting
the Unpacked and Installed conditions from their outcomes.  Deletion and
finalizer teardown (spec §4.3 step 6) are not modelled (no claim concerns
them). -/
def reconcile (resolver : Resolver) (spec : ExtensionSpec)
    (installed : Option BundleMetadata) (catalog : List Bundle)
    (prior : ExtensionStatus) (collab : Collaborators) :
    ExtensionStatus × Option ReconcileError :=
  match resolver spec installed catalog with
  | .error e =>
    (⟨[⟨TypeResolved, .conditionFalse, "ResolutionFailed", e.message⟩,
       carriedOr prior TypeUnpacked, carriedOr prior TypeInstalled],
      none, prior.installedBundle⟩,
     some (.resolutionFailed e.message))
  | .ok b =>
    let resolvedCond : Condition :=
      ⟨TypeResolved, .conditionTrue, "Success", "resolved to \"" ++ b.name ++ "\""⟩
    let md := some b.metadata
    match b.unsupportedDep with
    | some p =>
      (⟨[resolvedCond, carriedOr prior TypeUnpacked,
         ⟨TypeInstalled, .conditionFalse, "InstallationFailed",
          ReconcileError.render (.unsupportedDependency b.name p)⟩],
        md, prior.installedBundle⟩,
       some (.unsupportedDependency b.name p))
    | none =>
      if md = installed ∧
          (carriedOr prior TypeInstalled).status = .conditionTrue then
        (⟨[resolvedCond, carriedOr prior TypeUnpacked, carriedOr prior TypeInstalled],
          md, prior.installedBundle⟩, none)
      else
        match collab.unpack b with
        | .statePending =>
          (⟨[resolvedCond,
             ⟨TypeUnpacked, .conditionFalse, "UnpackPending", "unpack pending"⟩,
             carriedOr prior TypeInstalled],
            md, prior.installedBundle⟩, none)
        | .stateFailed =>
          (⟨[resolvedCond,
             ⟨TypeUnpacked, .conditionFalse, "UnpackFailed", "unpack failed"⟩,
             carriedOr prior TypeInstalled],
            md, prior.installedBundle⟩,
           some (.unpackFailed "unpack failed"))
        | .stateUnpacked =>
          let unpackedCond : Condition :=
            ⟨TypeUnpacked, .conditionTrue, "UnpackSuccess", "unpack successful"⟩
          match collab.install b with
          | none =>
            (⟨[resolvedCond, unpackedCond,
               ⟨TypeInstalled, .conditionTrue, "Success",
                "Installed bundle \"" ++ b.name ++ "\""⟩],
              md, md⟩, none)
          | some errMsg =>
            (⟨[resolvedCond, unpackedCond,
               ⟨TypeInstalled, .conditionFalse, "InstallationFailed", errMsg⟩],
              md, prior.installedBundle⟩,
             some (.installationFailed errMsg))

/-- The statuses reachable from a fresh object by reconcile passes with
the production resolver `Resolve`, over arbitrary specs, installed facts,
catalogs and collaborator outcomes. -/
inductive Reachable : ExtensionStatus → Prop
  | init : Reachable initialStatus
  | step {s : ExtensionStatus} (hs : Reachable s) (spec : ExtensionSpec)
      (installed : Option BundleMetadata) (catalog : List Bundle)
      (collab : Collaborators) :
      Reachable (reconcile Resolve spec installed catalog s collab).1

/-! ## BundleSource deep copy (embedded from the Go source,
`bundledeployment` API types) -/

/-- The `SourceType` string type of the `bundledeployment` API. -/
abbrev SourceType := String

/-- The `SourceTypeImage` constant. -/
def SourceTypeImage : SourceType := "image"

/-- Embedded from the source: `ImageSource` — a container image reference
with pull-secret name and TLS-verification flag. -/
structure ImageSource where
  ref : String
  imagePullSecretName : String
  insecureSkipTLSVerify : Bool
deriving DecidableEq, Repr

/-- Embedded from the source: `BundleSource` — the kind of bundle content
being sourced (field `Type`, modelled as `sourceType`) and an optional
pointer to an `ImageSource` (pointers are modelled as `Option`). -/
structure BundleSource where
  sourceType : SourceType
  image : Option ImageSource
deriving DecidableEq, Repr

/-- Embedded from the source: `BundleSource.DeepCopyInto` — `*out = *in`
copies every field shallowly, then when `in.Image` is non-nil a new
`ImageSource` is allocated and `**out = **in` copies its value.  The
result is the value written into `out`. -/
def BundleSource.DeepCopyInto (i : BundleSource) : BundleSource :=
  let out : BundleSource := i
  match i.image with
  | none => out
  | some img =>
    { out with
      image := some ⟨img.ref, img.imagePullSecretName, img.insecureSkipTLSVerify⟩ }

/-- Embedded from the source: `BundleSource.DeepCopy` — returns nil for a
nil receiver, otherwise allocates a new `BundleSource` and calls
`DeepCopyInto` on it (nilable pointers are modelled as `Option`). -/
def BundleSource.DeepCopy : Option BundleSource → Option BundleSource
  | none => none
  | some i => some i.DeepCopyInto

/-! ## The test catalog of spec §8 -/

/-- The `prometheus` 1.0.0 bundle of the spec §8 scenario (no upgrade
edges). -/
def b100 : Bundle := ⟨"prometheus-operator.1.0.0", "prometheus", semver 1 0 0, none, [], none, [], []⟩

/-- The `prometheus` 1.0.1 bundle (replaces 1.0.0). -/
def b101 : Bundle :=
  ⟨"prometheus-operator.1.0.1", "prometheus", semver 1 0 1, some (semver 1 0 0), [], none, [], []⟩

/-- The `prometheus` 1.2.0 bundle (replaces nothing matching 1.0.0). -/
def b120 : Bundle := ⟨"prometheus-operator.1.2.0", "prometheus", semver 1 2 0, none, [], none, [], []⟩

/-- The `prometheus` 2.0.0 bundle (replaces 1.2.0). -/
def b200 : Bundle :=
  ⟨"prometheus-operator.2.0.0", "prometheus", semver 2 0 0, some (semver 1 2 0), [], none, [], []⟩

/-- The spec §8 scenario catalog for package `prometheus`. -/
def specCatalog : List Bundle := [b100, b101, b120, b200]

/-- An extension spec requesting package `prometheus` with the given
exact-version constraint and declared policy. -/
def promSpec (v : Option SemVer) (p : Option UpgradeConstraintPolicy) : ExtensionSpec :=
  ⟨"prometheus", v, none, p, "default", "default"⟩

/-- The installed fact after installing `prometheus` 1.0.0. -/
def installed100 : BundleMetadata := ⟨"prometheus-operator.1.0.0", semver 1 0 0⟩

/-! ## Resolver lemmas -/

theorem highest_mem (b : Bundle) (l : List Bundle) : highest b l ∈ b :: l := by
  induction l generalizing b with
  | nil => simp [highest]
  | cons c cs ih =>
    simp only [highest]
    by_cases h : b.version.key < c.version.key
    · rw [if_pos h]
      exact List.mem_cons_of_mem b (ih c)
    · rw [if_neg h]
      rcases List.mem_cons.mp (ih b) with h' | h'
      · rw [h']; exact List.mem_cons_self _ _
      · exact List.mem_cons_of_mem b (List.mem_cons_of_mem c h')

theorem highest_le (b : Bundle) (l : List Bundle) :
    ∀ x ∈ b :: l, x.version.key ≤ (highest b l).version.key := by
  induction l generalizing b with
  | nil => intro x hx; simp at hx; simp [highest, hx]
  | cons c cs ih =>
    intro x hx
    simp only [highest]
    by_cases h : b.version.key < c.version.key
    · rw [if_pos h]
      rcases List.mem_cons.mp hx with h' | hx'
      · subst h'
        exact le_trans (le_of_lt h) (ih c c (by simp))
      · exact ih c x hx'
    · rw [if_neg h]
      rcases List.mem_cons.mp hx with h' | hx'
      · subst h'
        exact ih x x (by simp)
      · rcases List.mem_cons.mp hx' with h'' | hx''
        · subst h''
          exact le_trans (le_of_not_lt h) (ih b b (by simp))
        · exact ih b x (by simp [hx''])

/-- A successful resolution selects a member of the candidate set. -/
theorem resolve_ok_mem {spec : ExtensionSpec} {installed : Option BundleMetadata}
    {catalog : List Bundle} {b : Bundle} (h : Resolve spec installed catalog = .ok b) :
    b ∈ candidates spec installed catalog := by
  unfold Resolve at h
  cases hc : candidates spec installed catalog with
  | nil => rw [hc] at h; exact absurd h (by simp)
  | cons c cs =>
    rw [hc] at h
    simp only [Except.ok.injEq] at h
    rw [← h, hc] at *
    exact highest_mem c cs

/-- A successful resolution selects a candidate of maximal semantic-version
precedence. -/
theorem resolve_ok_max {spec : ExtensionSpec} {installed : Option BundleMetadata}
    {catalog : List Bundle} {b : Bundle} (h : Resolve spec installed catalog = .ok b) :
    ∀ x ∈ candidates spec installed catalog, x.version.key ≤ b.version.key := by
  unfold Resolve at h
  cases hc : candidates spec installed catalog with
  | nil => rw [hc] at h; exact absurd h (by simp)
  | cons c cs =>
    rw [hc] at h
    simp only [Except.ok.injEq] at h
    rw [← h]
    exact highest_le c cs

/-- A nonempty candidate set makes resolution succeed, selecting a
candidate. -/
theorem resolve_ok_of_mem {spec : ExtensionSpec} {installed : Option BundleMetadata}
    {catalog : List Bundle} {w : Bundle} (h : w ∈ candidates spec installed catalog) :
    ∃ b, Resolve spec installed catalog = .ok b ∧ b ∈ candidates spec installed catalog := by
  unfold Resolve
  cases hc : candidates spec installed catalog with
  | nil => rw [hc] at h; exact absurd h (by simp)
  | cons c cs =>
    exact ⟨highest c cs, rfl, highest_mem c cs⟩

/-- An empty candidate set makes resolution fail with the formatted
`ResolutionFailed` message. -/
theorem resolve_error_of_empty {spec : ExtensionSpec} {installed : Option BundleMetadata}
    {catalog : List Bundle} (h : candidates spec installed catalog = []) :
    Resolve spec installed catalog = .error ⟨resolutionFailedMsg spec installed⟩ := by
  unfold Resolve
  rw [h]

/-- Membership in the candidate set under the Enforce policy with an
installed fact and an exact requested version: bundle of the requested
package, of the requested version, reachable from the installed version. -/
theorem mem_candidates_exact_enforce (pkg iname ns sa : String) (ch : Option String)
    (R V : SemVer) (cat : List Bundle) (b : Bundle) :
    b ∈ candidates ⟨pkg, some R, ch, some .Enforce, ns, sa⟩ (some ⟨iname, V⟩) cat ↔
      b ∈ cat ∧ b.package = pkg ∧ b.version = R ∧ isSuccessor V b = true := by
  simp [candidates, ExtensionSpec.effectivePolicy, List.mem_filter, and_assoc]
  tauto

/-- Membership in the candidate set under the Ignore policy with an
installed fact and an exact requested version: no reachability filter. -/
theorem mem_candidates_exact_ignore (pkg iname ns sa : String) (ch : Option String)
    (R V : SemVer) (cat : List Bundle) (b : Bundle) :
    b ∈ candidates ⟨pkg, some R, ch, some .Ignore, ns, sa⟩ (some ⟨iname, V⟩) cat ↔
      b ∈ cat ∧ b.package = pkg ∧ b.version = R := by
  simp [candidates, ExtensionSpec.effectivePolicy, List.mem_filter, and_assoc]
  tauto

/-! ## Claim theorems: resolver -/

/-- C1: under the Enforce upgrade-constraint policy, with installed
version V and requested exact version R, resolution succeeds selecting a
bundle of version R iff some catalog bundle of the requested package has
version R and is graph-reachable from V (replaces / skips / skipRange);
when no such bundle exists it fails with the `ResolutionFailed` message
`error upgrading from currently installed version "<installed>": no
package "<name>" matching version "<requested>" found`. -/
theorem resolve_enforce_exact_version_iff_reachable (pkg iname ns sa : String)
    (ch : Option String) (R V : SemVer) (catalog : List Bundle) :
    ((∃ b, Resolve ⟨pkg, some R, ch, some .Enforce, ns, sa⟩ (some ⟨iname, V⟩) catalog = .ok b
        ∧ b.version = R) ↔
      (∃ b ∈ catalog, b.package = pkg ∧ b.version = R ∧ isSuccessor V b = true))
    ∧ ((¬ ∃ b ∈ catalog, b.package = pkg ∧ b.version = R ∧ isSuccessor V b = true) →
      Resolve ⟨pkg, some R, ch, some .Enforce, ns, sa⟩ (some ⟨iname, V⟩) catalog =
        .error ⟨"error upgrading from currently installed version \"" ++ V.render ++ "\": " ++
          ("no package \"" ++ pkg ++ "\" matching version \"" ++ R.render ++ "\" found")⟩) := by
  constructor
  · constructor
    · rintro ⟨b, hok, hv⟩
      have hmem := resolve_ok_mem hok
      rw [mem_candidates_exact_enforce] at hmem
      exact ⟨b, hmem.1, hmem.2⟩
    · rintro ⟨w, hwcat, hwpkg, hwver, hwsucc⟩
      have hw : w ∈ candidates ⟨pkg, some R, ch, some .Enforce, ns, sa⟩ (some ⟨iname, V⟩) catalog := by
        rw [mem_candidates_exact_enforce]
        exact ⟨hwcat, hwpkg, hwver, hwsucc⟩
      obtain ⟨b, hok, hbmem⟩ := resolve_ok_of_mem hw
      rw [mem_candidates_exact_enforce] at hbmem
      exact ⟨b, hok, hbmem.2.2.1⟩
  · intro hno
    have hempty : candidates ⟨pkg, some R, ch, some .Enforce, ns, sa⟩ (some ⟨iname, V⟩) catalog = [] := by
      rw [List.eq_nil_iff_forall_not_mem]
      intro b hb
      rw [mem_candidates_exact_enforce] at hb
      exact hno ⟨b, hb.1, hb.2⟩
    exact resolve_error_of_empty hempty

/-- Closed witness for the C1 theorem at the spec §8 scenario: installed
`prometheus` 1.0.0 with requested 1.2.0 under Enforce has no reachable
candidate, and resolution fails with exactly the message the e2e test
asserts. -/
theorem resolve_enforce_exact_version_iff_reachable_witness :
    Resolve ⟨"prometheus", some (semver 1 2 0), none, some .Enforce, "default", "default"⟩
        (some ⟨"prometheus-operator.1.0.0", semver 1 0 0⟩) specCatalog =
      .error ⟨"error upgrading from currently installed version \"1.0.0\": no package \"prometheus\" matching version \"1.2.0\" found"⟩ := by
  have h := (resolve_enforce_exact_version_iff_reachable "prometheus" "prometheus-operator.1.0.0"
    "default" "default" none (semver 1 2 0) (semver 1 0 0) specCatalog).2 (by decide)
  exact h

/-- C4: under the Ignore upgrade-constraint policy, with an installed fact
and requested exact version R, resolution succeeds iff some bundle of the
requested package with version R exists in the catalog, regardless of
upgrade-edge reachability; in particular installed 1.0.0 with requested
1.2.0 (not a graph successor) resolves to the 1.2.0 bundle. -/
theorem resolve_ignore_exact_version_iff_exists (pkg iname ns sa : String)
    (ch : Option String) (R V : SemVer) (catalog : List Bundle) :
    ((∃ b, Resolve ⟨pkg, some R, ch, some .Ignore, ns, sa⟩ (some ⟨iname, V⟩) catalog = .ok b
        ∧ b.version = R) ↔
      (∃ b ∈ catalog, b.package = pkg ∧ b.version = R))
    ∧ Resolve (promSpec (some (semver 1 2 0)) (some .Ignore)) (some installed100) specCatalog
        = .ok b120 := by
  constructor
  · constructor
    · rintro ⟨b, hok, hv⟩
      have hmem := resolve_ok_mem hok
      rw [mem_candidates_exact_ignore] at hmem
      exact ⟨b, hmem.1, hmem.2⟩
    · rintro ⟨w, hwcat, hwpkg, hwver⟩
      have hw : w ∈ candidates ⟨pkg, some R, ch, some .Ignore, ns, sa⟩ (some ⟨iname, V⟩) catalog := by
        rw [mem_candidates_exact_ignore]
        exact ⟨hwcat, hwpkg, hwver⟩
      obtain ⟨b, hok, hbmem⟩ := resolve_ok_of_mem hw
      rw [mem_candidates_exact_ignore] at hbmem
      exact ⟨b, hok, hbmem.2.2⟩
  · rfl

/-- C5: on first install (no installed fact), resolution selects the
candidate of maximal semantic-version precedence among those satisfying
the explicit constraints; with versions {1.0.0, 1.0.1, 1.2.0} and no
constraint it selects 1.2.0; and an empty candidate set fails with
`ResolutionFailed`. -/
theorem resolve_first_install_selects_max (spec : ExtensionSpec) (catalog : List Bundle) :
    (∀ b, Resolve spec none catalog = .ok b →
      b ∈ candidates spec none catalog ∧
        ∀ x ∈ candidates spec none catalog, x.version.key ≤ b.version.key)
    ∧ (candidates spec none catalog = [] →
      Resolve spec none catalog = .error ⟨resolutionFailedMsg spec none⟩)
    ∧ Resolve ⟨"prometheus", none, none, none, "default", "default"⟩ none [b100, b101, b120]
        = .ok b120 := by
  refine ⟨fun b hok => ⟨resolve_ok_mem hok, resolve_ok_max hok⟩, resolve_error_of_empty, rfl⟩

/-- Closed witness for the C5 theorem: at the concrete three-version
catalog the selected bundle 1.2.0 is a candidate and is maximal. -/
theorem resolve_first_install_selects_max_witness :
    b120 ∈ candidates ⟨"prometheus", none, none, none, "default", "default"⟩ none [b100, b101, b120]
    ∧ ∀ x ∈ candidates ⟨"prometheus", none, none, none, "default", "default"⟩ none [b100, b101, b120],
        x.version.key ≤ b120.version.key := by
  exact (resolve_first_install_selects_max
    ⟨"prometheus", none, none, none, "default", "default"⟩ [b100, b101, b120]).1 b120 rfl

/-- C8: an extension spec that omits the upgrade-constraint policy
resolves exactly as one declaring Enforce; concretely, with installed
1.0.0 and requested non-successor 1.2.0 and no declared policy,
resolution fails with the `ResolutionFailed` message instead of
resolving. -/
theorem resolve_default_policy_is_enforce :
    (∀ (pkg ns sa : String) (v : Option SemVer) (ch : Option String)
        (installed : Option BundleMetadata) (catalog : List Bundle),
      Resolve ⟨pkg, v, ch, none, ns, sa⟩ installed catalog =
        Resolve ⟨pkg, v, ch, some .Enforce, ns, sa⟩ installed catalog)
    ∧ Resolve (promSpec (some (semver 1 2 0)) none) (some installed100) specCatalog =
        .error ⟨"error upgrading from currently installed version \"1.0.0\": no package \"prometheus\" matching version \"1.2.0\" found"⟩ := by
  exact ⟨fun pkg ns sa v ch installed catalog => rfl, rfl⟩

/-! ## Condition-list lemmas -/

theorem carriedOr_type (prior : ExtensionStatus) (t : String) : (carriedOr prior t).type = t := by
  simp only [carriedOr, FindCondition]
  cases h : prior.conditions.find? (fun c => c.type == t) with
  | none => rfl
  | some c =>
    have hc := List.find?_some h
    exact beq_iff_eq.mp hc

theorem findCondition_triple (r u i : Condition) (hr : r.type = TypeResolved)
    (hu : u.type = TypeUnpacked) (hi : i.type = TypeInstalled) :
    FindCondition [r, u, i] TypeResolved = some r ∧
    FindCondition [r, u, i] TypeUnpacked = some u ∧
    FindCondition [r, u, i] TypeInstalled = some i := by
  simp [FindCondition, List.find?, hr, hu, hi, TypeResolved, TypeUnpacked, TypeInstalled]

/-! ## Claim theorems: reconciliation pass -/

/-- C6: after every reconcile pass — whichever phase succeeded or failed,
and whatever resolver the reconciler is configured with — the status
condition list carries exactly the canonical condition types (Resolved,
Unpacked, Installed) in order, so its length equals the canonical
count. -/
theorem reconcile_condition_set_complete (resolver : Resolver) (spec : ExtensionSpec)
    (installed : Option BundleMetadata) (catalog : List Bundle) (prior : ExtensionStatus)
    (collab : Collaborators) :
    ((reconcile resolver spec installed catalog prior collab).1.conditions.map Condition.type
        = ConditionTypes)
    ∧ (reconcile resolver spec installed catalog prior collab).1.conditions.length
        = ConditionTypes.length := by
  have h : (reconcile resolver spec installed catalog prior collab).1.conditions.map Condition.type
      = ConditionTypes := by
    cases hres : resolver spec installed catalog with
    | error e => simp [reconcile, hres, ConditionTypes, carriedOr_type]
    | ok b =>
      cases hdep : b.unsupportedDep with
      | some p => simp [reconcile, hres, hdep, ConditionTypes, carriedOr_type]
      | none =>
        simp only [reconcile, hres, hdep]
        split
        · simp [ConditionTypes, carriedOr_type]
        · cases hu : collab.unpack b with
          | statePending => simp [ConditionTypes, carriedOr_type]
          | stateFailed => simp [ConditionTypes, carriedOr_type]
          | stateUnpacked =>
            cases hi : collab.install b with
            | none => simp [ConditionTypes, carriedOr_type]
            | some m => simp [ConditionTypes, carriedOr_type]
  refine ⟨h, ?_⟩
  rw [← h, List.length_map]

/-- The per-pass form of the resolved-bundle invariant: whatever the
inputs, the status a reconcile pass writes has `resolvedBundle` non-empty
exactly when its Resolved condition is True. -/
theorem reconcile_resolvedBundle_inv (resolver : Resolver) (spec : ExtensionSpec)
    (installed : Option BundleMetadata) (catalog : List Bundle) (prior : ExtensionStatus)
    (collab : Collaborators) :
    ((reconcile resolver spec installed catalog prior collab).1.resolvedBundle ≠ none ↔
      ∃ c, FindCondition (reconcile resolver spec installed catalog prior collab).1.conditions
          TypeResolved = some c ∧ c.status = .conditionTrue) := by
  cases hres : resolver spec installed catalog with
  | error e => simp [reconcile, hres, FindCondition, List.find?, TypeResolved]
  | ok b =>
    cases hdep : b.unsupportedDep with
    | some p => simp [reconcile, hres, hdep, FindCondition, List.find?, TypeResolved]
    | none =>
      simp only [reconcile, hres, hdep]
      split
      · simp [FindCondition, List.find?, TypeResolved]
      · cases hu : collab.unpack b with
        | statePending => simp [FindCondition, List.find?, TypeResolved]
        | stateFailed => simp [FindCondition, List.find?, TypeResolved]
        | stateUnpacked =>
          cases hi : collab.install b with
          | none => simp [FindCondition, List.find?, TypeResolved]
          | some m => simp [FindCondition, List.find?, TypeResolved]

/-- C7: in every status state reachable by reconcile passes, the
`ResolvedBundle` projection is non-empty if and only if the Resolved
condition has status True. -/
theorem status_resolvedBundle_iff_resolved_true (s : ExtensionStatus) (hs : Reachable s) :
    s.resolvedBundle ≠ none ↔
      ∃ c, FindCondition s.conditions TypeResolved = some c ∧
        c.status = ConditionStatus.conditionTrue := by
  induction hs with
  | init => simp [initialStatus, FindCondition]
  | step hs spec installed catalog collab ih =>
    exact reconcile_resolvedBundle_inv Resolve spec installed catalog _ collab

/-- Closed witness for the C7 theorem at the status reached by one
successful reconcile pass from a fresh object. -/
theorem status_resolvedBundle_iff_resolved_true_witness :
    (reconcile Resolve (promSpec none none) none specCatalog initialStatus
        ⟨fun _ => .stateUnpacked, fun _ => none⟩).1.resolvedBundle ≠ none ↔
      ∃ c, FindCondition (reconcile Resolve (promSpec none none) none specCatalog initialStatus
          ⟨fun _ => .stateUnpacked, fun _ => none⟩).1.conditions TypeResolved = some c ∧
        c.status = ConditionStatus.conditionTrue :=
  status_resolvedBundle_iff_resolved_true _
    (Reachable.step Reachable.init (promSpec none none) none specCatalog
      ⟨fun _ => .stateUnpacked, fun _ => none⟩)

/-- C2: when resolution selects a bundle declaring an `olm.package.required`,
`olm.gvk.required`, or `olm.constraint` property, the reconcile pass fails
with a non-empty `UnsupportedDependency` error and sets the Installed
condition to False / InstallationFailed with the message `bundle "<name>"
has a dependency declared via property "<prop>" which is currently not
supported`; a bundle declaring none of these produces no such error, and
an unsupported declaration is found exactly when the bundle's property
list holds one of the three types. -/
theorem reconcile_fails_on_unsupported_dependency (spec : ExtensionSpec)
    (installed : Option BundleMetadata) (catalog : List Bundle) (prior : ExtensionStatus)
    (collab : Collaborators) (b : Bundle)
    (hok : Resolve spec installed catalog = .ok b) :
    (∀ p, b.unsupportedDep = some p →
      (reconcile Resolve spec installed catalog prior collab).2 =
          some (.unsupportedDependency b.name p) ∧
        FindCondition (reconcile Resolve spec installed catalog prior collab).1.conditions
            TypeInstalled =
          some ⟨TypeInstalled, .conditionFalse, "InstallationFailed",
            "bundle \"" ++ b.name ++ "\" has a dependency declared via property \"" ++ p ++
              "\" which is currently not supported"⟩)
    ∧ (b.unsupportedDep = none →
      ∀ n q, (reconcile Resolve spec installed catalog prior collab).2 ≠
        some (.unsupportedDependency n q))
    ∧ ((b.unsupportedDep).isSome ↔ ∃ pr ∈ b.properties, pr ∈ unsupportedPropertyTypes) := by
  refine ⟨?_, ?_, ?_⟩
  · intro p hp
    constructor
    · simp [reconcile, hok, hp]
    · have ht := (findCondition_triple
        ⟨TypeResolved, .conditionTrue, "Success", "resolved to \"" ++ b.name ++ "\""⟩
        (carriedOr prior TypeUnpacked)
        ⟨TypeInstalled, .conditionFalse, "InstallationFailed",
          ReconcileError.render (.unsupportedDependency b.name p)⟩
        rfl (carriedOr_type prior TypeUnpacked) rfl).2.2
      simpa [reconcile, hok, hp, ReconcileError.render] using ht
  · intro hnone n q
    simp only [reconcile, hok, hnone]
    split
    · simp
    · cases hu : collab.unpack b with
      | statePending => simp
      | stateFailed => simp
      | stateUnpacked =>
        cases hi : collab.install b with
        | none => simp
        | some m => simp
  · simp [Bundle.unsupportedDep, List.find?_isSome]

/-- Closed witness for the C2 theorem: the `package-required-test` bundle
of the unit test, whose only dependency declaration is
`olm.package.required`, makes the pass fail with exactly the message the
test asserts on the Installed condition. -/
theorem reconcile_fails_on_unsupported_dependency_witness :
    (reconcile Resolve
        ⟨"package-required-test", none, none, none, "default", "default"⟩ none
        [⟨"fake-catalog/package-required-test/alpha/1.0.0", "package-required-test",
          semver 1 0 0, none, [], none, [], ["olm.package", "olm.package.required"]⟩]
        initialStatus ⟨fun _ => .statePending, fun _ => none⟩).2 =
      some (.unsupportedDependency "fake-catalog/package-required-test/alpha/1.0.0"
        "olm.package.required") ∧
    FindCondition (reconcile Resolve
        ⟨"package-required-test", none, none, none, "default", "default"⟩ none
        [⟨"fake-catalog/package-required-test/alpha/1.0.0", "package-required-test",
          semver 1 0 0, none, [], none, [], ["olm.package", "olm.package.required"]⟩]
        initialStatus ⟨fun _ => .statePending, fun _ => none⟩).1.conditions TypeInstalled =
      some ⟨TypeInstalled, .conditionFalse, "InstallationFailed",
        "bundle \"fake-catalog/package-required-test/alpha/1.0.0\" has a dependency declared via property \"olm.package.required\" which is currently not supported"⟩ := by
  have h := (reconcile_fails_on_unsupported_dependency
    ⟨"package-required-test", none, none, none, "default", "default"⟩ none
    [⟨"fake-catalog/package-required-test/alpha/1.0.0", "package-required-test",
      semver 1 0 0, none, [], none, [], ["olm.package", "olm.package.required"]⟩]
    initialStatus ⟨fun _ => .statePending, fun _ => none⟩ _ rfl).1
    "olm.package.required" rfl
  simpa using h

/-- A bundle with its dependency declarations (property list) erased;
everything the resolver reads is preserved. -/
def stripProperties (b : Bundle) : Bundle :=
  ⟨b.name, b.package, b.version, b.replaces, b.skips, b.skipRange, b.channels, []⟩

theorem candidates_strip (spec : ExtensionSpec) (installed : Option BundleMetadata)
    (catalog : List Bundle) :
    candidates spec installed (catalog.map stripProperties) =
      (candidates spec installed catalog).map stripProperties := by
  unfold candidates
  cases hv : spec.version with
  | some v =>
    cases installed with
    | none =>
      simp only [hv, List.filter_map]
      rfl
    | some inst =>
      cases hp : spec.effectivePolicy with
      | Enforce =>
        simp only [hv, hp, List.filter_map]
        rfl
      | Ignore =>
        simp only [hv, hp, List.filter_map]
        rfl
  | none =>
    cases hc : spec.channel with
    | some ch =>
      cases installed with
      | none =>
        simp only [hv, hc, List.filter_map]
        rfl
      | some inst =>
        cases hp : spec.effectivePolicy with
        | Enforce =>
          simp only [hv, hc, hp, List.filter_map]
          rfl
        | Ignore =>
          simp only [hv, hc, hp, List.filter_map]
          rfl
    | none =>
      cases installed with
      | none =>
        simp only [hv, hc, List.filter_map]
        rfl
      | some inst =>
        cases hp : spec.effectivePolicy with
        | Enforce =>
          simp only [hv, hc, hp, List.filter_map]
          rfl
        | Ignore =>
          simp only [hv, hc, hp, List.filter_map]
          rfl

theorem highest_strip (b : Bundle) (l : List Bundle) :
    highest (stripProperties b) (l.map stripProperties) = stripProperties (highest b l) := by
  induction l generalizing b with
  | nil => rfl
  | cons c cs ih =>
    show (if b.version.key < c.version.key
        then highest (stripProperties c) (cs.map stripProperties)
        else highest (stripProperties b) (cs.map stripProperties)) =
      stripProperties (if b.version.key < c.version.key then highest c cs else highest b cs)
    by_cases h : b.version.key < c.version.key
    · rw [if_pos h, if_pos h]
      exact ih c
    · rw [if_neg h, if_neg h]
      exact ih b

/-- Erasing every bundle's dependency declarations changes neither whether
resolution succeeds nor (up to the same erasure) which bundle it selects:
the resolver performs no dependency filtering. -/
theorem resolve_strip (spec : ExtensionSpec) (installed : Option BundleMetadata)
    (catalog : List Bundle) :
    Resolve spec installed (catalog.map stripProperties) =
      Except.map stripProperties (Resolve spec installed catalog) := by
  unfold Resolve
  rw [candidates_strip]
  cases hc : candidates spec installed catalog with
  | nil => rfl
  | cons c cs =>
    show Except.ok (highest (stripProperties c) (cs.map stripProperties)) = _
    rw [highest_strip]
    rfl

/-- C3: the unsupported-dependency admissibility check is a post-selection
validation inside the reconciler, applied to the single winning bundle:
with ANY resolver (in particular one doing no dependency filtering, like
the unit test's stub), a pass whose resolver returns a bundle carrying an
unsupported dependency declaration fails with the
`UnsupportedDependency` error naming that bundle; and the production
resolver itself does no dependency filtering — erasing all dependency
declarations from the catalog leaves its outcome unchanged up to the same
erasure. -/
theorem dependency_check_is_post_selection :
    (∀ (resolver : Resolver) (spec : ExtensionSpec) (installed : Option BundleMetadata)
        (catalog : List Bundle) (prior : ExtensionStatus) (collab : Collaborators)
        (b : Bundle) (p : String),
      resolver spec installed catalog = .ok b → b.unsupportedDep = some p →
        (reconcile resolver spec installed catalog prior collab).2 =
          some (.unsupportedDependency b.name p))
    ∧ (∀ (spec : ExtensionSpec) (installed : Option BundleMetadata) (catalog : List Bundle),
      Resolve spec installed (catalog.map stripProperties) =
        Except.map stripProperties (Resolve spec installed catalog)) := by
  constructor
  · intro resolver spec installed catalog prior collab b p hok hp
    simp [reconcile, hok, hp]
  · exact resolve_strip

/-- Closed witness for the C3 theorem: a stub resolver that uncritically
returns the `gvk-required-test` bundle of the unit test (doing no
dependency filtering) still makes the pass fail with the
`UnsupportedDependency` error for `olm.gvk.required`. -/
theorem dependency_check_is_post_selection_witness :
    (reconcile
        (fun _ _ _ => .ok ⟨"fake-catalog/gvk-required-test/alpha/1.0.0", "gvk-required-test",
          semver 1 0 0, none, [], none, [], ["olm.package", "olm.gvk.required"]⟩)
        ⟨"gvk-required-test", none, none, none, "default", "default"⟩ none []
        initialStatus ⟨fun _ => .statePending, fun _ => none⟩).2 =
      some (.unsupportedDependency "fake-catalog/gvk-required-test/alpha/1.0.0"
        "olm.gvk.required") := by
  exact (dependency_check_is_post_selection).1
    (fun _ _ _ => .ok ⟨"fake-catalog/gvk-required-test/alpha/1.0.0", "gvk-required-test",
      semver 1 0 0, none, [], none, [], ["olm.package", "olm.gvk.required"]⟩)
    ⟨"gvk-required-test", none, none, none, "default", "default"⟩ none []
    initialStatus ⟨fun _ => .statePending, fun _ => none⟩ _ "olm.gvk.required" rfl rfl

/-! ## Claim theorems: BundleSource deep copy -/

/-- C9: `DeepCopy` on a nil `*BundleSource` receiver returns nil rather than
dereferencing it, and on every non-nil receiver it returns a non-nil
result, so the operation is total over all pointer inputs. -/
theorem bundleSource_deepCopy_nil :
    BundleSource.DeepCopy none = none
    ∧ ∀ s : BundleSource, (BundleSource.DeepCopy (some s)).isSome = true :=
  ⟨rfl, fun _ => rfl⟩

/-- C10: for every non-nil `*BundleSource` s, `DeepCopy` returns a non-nil
result value-equal to s: the `Type` field is copied; a nil `Image` stays
nil; a non-nil `Image` yields a fresh `ImageSource` whose `Ref`,
`ImagePullSecretName` and `InsecureSkipTLSVerify` equal the original's —
a round-trip equality up to value equality. -/
theorem bundleSource_deepCopy_roundtrip (s : BundleSource) :
    BundleSource.DeepCopy (some s) = some s
    ∧ s.DeepCopyInto = s
    ∧ s.DeepCopyInto.sourceType = s.sourceType
    ∧ (s.image = none → s.DeepCopyInto.image = none)
    ∧ (∀ img, s.image = some img → ∃ img2, s.DeepCopyInto.image = some img2
        ∧ img2.ref = img.ref ∧ img2.imagePullSecretName = img.imagePullSecretName
        ∧ img2.insecureSkipTLSVerify = img.insecureSkipTLSVerify) := by
  obtain ⟨t, img⟩ := s
  cases img with
  | none =>
    refine ⟨rfl, rfl, rfl, fun _ => rfl, ?_⟩
    intro i h
    cases h
  | some i =>
    refine ⟨rfl, rfl, rfl, ?_, ?_⟩
    · intro h
      cases h
    · intro i2 h
      cases h
      exact ⟨i, rfl, rfl, rfl, rfl⟩

/-- Closed witness for the C10 theorem at a concrete image-backed
source. -/
theorem bundleSource_deepCopy_roundtrip_witness :
    BundleSource.DeepCopy (some ⟨SourceTypeImage, some ⟨"quay.io/fake/bundle", "pull-secret", false⟩⟩)
        = some ⟨SourceTypeImage, some ⟨"quay.io/fake/bundle", "pull-secret", false⟩⟩
    ∧ ∃ img2, (BundleSource.DeepCopyInto
          ⟨SourceTypeImage, some ⟨"quay.io/fake/bundle", "pull-secret", false⟩⟩).image = some img2
        ∧ img2.ref = "quay.io/fake/bundle" ∧ img2.imagePullSecretName = "pull-secret"
        ∧ img2.insecureSkipTLSVerify = false := by
  have h := bundleSource_deepCopy_roundtrip
    ⟨SourceTypeImage, some ⟨"quay.io/fake/bundle", "pull-secret", false⟩⟩
  exact ⟨h.1, h.2.2.2.2 ⟨"quay.io/fake/bundle", "pull-secret", false⟩ rfl⟩

end OperatorController
